import Mathlib

/-
Verification of `kremblin_model.py` (Kremblin BBB-score calculator).

Modelling conventions for the shallow embedding:
* Python float arithmetic is idealised as exact arithmetic: descriptor
  values read from the CSV are finite decimals, modelled as rationals
  (`ℚ`); the only irrational operation of the program, `mw ** (-0.5)`,
  is modelled over the reals (`ℝ`) with `Real.rpow`.
* Python `mw ** (-0.5)` raises `ZeroDivisionError` when `mw = 0` and
  produces a `complex` value when `mw < 0` (which then raises
  `TypeError` at the first `<=` comparison on `b8`).  Both raises are
  modelled as the `Except.error` branch of `calculate_bbb_score`.
* `int(float(s))` truncation toward zero is modelled by `pyInt`.
-/

namespace KremblinModel

/-- Aromatic-ring sub-score (local variable `c3` of `calculate_bbb_score`,
source lines 26-38): discrete lookup on the integer ring count. -/
def c3 (aro_r : ℤ) : ℚ :=
  if aro_r = 0 then 0.336376
  else if aro_r = 1 then 0.816016
  else if aro_r = 2 then 1
  else if aro_r = 3 then 0.691115
  else if aro_r = 4 then 0.199399
  else 0

/-- Heavy-atom sub-score (local variable `c4`, source lines 40-44):
gated cubic polynomial in the heavy-atom count. -/
def c4 (ha : ℤ) : ℚ :=
  if ha ≤ 5 ∨ ha > 45 then 0
  else (1/0.624231) *
    (0.0000443 * (ha : ℚ)^3 - 0.004556 * (ha : ℚ)^2 + 0.12775 * (ha : ℚ) - 0.463)

/-- MWHBN intermediate (local variable `b8`, source line 47):
`mw ** (-0.5) * (hba + hbd)`.  Only used by the scorer after the
`mw ≤ 0` raise has been ruled out, so the junk value taken at
non-positive `mw` is never consumed. -/
noncomputable def b8 (mw : ℚ) (hba hbd : ℤ) : ℝ :=
  (mw : ℝ) ^ (-0.5 : ℝ) * ((hba + hbd : ℤ) : ℝ)

/-- MWHBN sub-score (local variable `c8`, source lines 49-53):
gated cubic polynomial in the intermediate `b8`. -/
noncomputable def c8 (b8v : ℝ) : ℝ :=
  if b8v ≤ 0.05 ∨ b8v > 0.45 then 0
  else (1/0.72258) * (26.733 * b8v^3 - 31.495 * b8v^2 + 9.5202 * b8v - 0.1358)

/-- TPSA sub-score (local variable `c9`, source lines 55-59): gated
linear formula; note the gate tests `tpsa == 0`, not `tpsa ≤ 0`. -/
def c9 (tpsa : ℚ) : ℚ :=
  if tpsa = 0 ∨ tpsa > 120 then 0
  else (1/0.9598) * (-0.0067 * tpsa + 0.9598)

/-- pKa sub-score (local variable `c10`, source lines 61-66): gated
quartic polynomial. -/
def c10 (pka : ℚ) : ℚ :=
  if pka ≤ 3 ∨ pka > 11 then 0
  else (1/0.597488) *
    (0.00045068 * pka^4 - 0.016331 * pka^3 + 0.18618 * pka^2 - 0.71043 * pka + 0.8579)

/-- Python exceptions that the program can raise, as far as the model
tracks them. -/
inductive PyExc where
  | fileNotFoundError (path : String)
  | zeroDivisionError
  | typeError
  deriving DecidableEq

/-- The composite score (local variable `bbb_score`, source line 69),
written in the source's own operand order. -/
noncomputable def bbbVal (aro_r ha : ℤ) (mw : ℚ) (hba hbd : ℤ) (tpsa pka : ℚ) : ℝ :=
  (c3 aro_r : ℝ) + (c4 ha : ℝ) + c8 (b8 mw hba hbd) * 1.5
    + (c9 tpsa : ℝ) * 2 + (c10 pka : ℝ) * 0.5

/-- The scorer `calculate_bbb_score` (source lines 3-71).  The
`Except.error` branches model the exception raised by `mw ** (-0.5)`:
`ZeroDivisionError` for `mw = 0`, and for `mw < 0` the complex result
that raises `TypeError` at the `b8 <= 0.05` comparison. -/
noncomputable def calculate_bbb_score
    (aro_r ha : ℤ) (mw : ℚ) (hba hbd : ℤ) (tpsa pka : ℚ) : Except PyExc ℝ :=
  if mw = 0 then .error .zeroDivisionError
  else if mw < 0 then .error .typeError
  else .ok (bbbVal aro_r ha mw hba hbd tpsa pka)

/-- C1: for every input with `mw ≤ 0`, `calculate_bbb_score` raises
(propagates a typed error: `ZeroDivisionError` at `mw = 0`,
`TypeError` from the complex power for `mw < 0`) and never returns a
score at all — in particular never a silent zero, NaN or infinite one. -/
theorem mw_nonpositive_raises (aro_r ha : ℤ) (mw : ℚ) (hba hbd : ℤ) (tpsa pka : ℚ)
    (h : mw ≤ 0) :
    calculate_bbb_score aro_r ha mw hba hbd tpsa pka =
      .error (if mw = 0 then PyExc.zeroDivisionError else PyExc.typeError) := by
  by_cases h0 : mw = 0
  · simp [calculate_bbb_score, h0]
  · have hlt : mw < 0 := lt_of_le_of_ne h h0
    simp [calculate_bbb_score, h0, hlt]

/-- Witness for C1: the concrete inputs `mw = -10` and `mw = 0` from the
spec both satisfy the hypothesis and hit the error branch. -/
theorem mw_nonpositive_raises_witness :
    (-10 : ℚ) ≤ 0 ∧
      calculate_bbb_score 2 20 (-10) 3 1 60 7 =
        .error (if (-10 : ℚ) = 0 then PyExc.zeroDivisionError else PyExc.typeError) :=
  ⟨by norm_num, mw_nonpositive_raises 2 20 (-10) 3 1 60 7 (by norm_num)⟩

/-- C3: on every input where the score is defined (`mw > 0`) the scorer
returns exactly `C3 + C4 + 1.5*C8 + 2.0*C9 + 0.5*C10`, with the weights
(1, 1, 1.5, 2, 0.5) as fixed constants. -/
theorem composite_weighted_sum (aro_r ha : ℤ) (mw : ℚ) (hba hbd : ℤ) (tpsa pka : ℚ)
    (h : 0 < mw) :
    calculate_bbb_score aro_r ha mw hba hbd tpsa pka =
      .ok ((c3 aro_r : ℝ) + (c4 ha : ℝ) + 1.5 * c8 (b8 mw hba hbd)
        + 2 * (c9 tpsa : ℝ) + 0.5 * (c10 pka : ℝ)) := by
  have h0 : ¬ mw = 0 := h.ne'
  have h1 : ¬ mw < 0 := not_lt.mpr h.le
  simp only [calculate_bbb_score, if_neg h0, if_neg h1, bbbVal, Except.ok.injEq]
  ring

/-- Witness for C3 at a concrete positive molecular weight. -/
theorem composite_weighted_sum_witness :
    (0 : ℚ) < 300 ∧
      calculate_bbb_score 2 20 300 3 1 60 7 =
        .ok ((c3 2 : ℝ) + (c4 20 : ℝ) + 1.5 * c8 (b8 300 3 1)
          + 2 * (c9 60 : ℝ) + 0.5 * (c10 7 : ℝ)) :=
  ⟨by norm_num, composite_weighted_sum 2 20 300 3 1 60 7 (by norm_num)⟩

/-- C4: the TPSA sub-score is 0 exactly when `tpsa = 0` (strict equality,
not `≤ 0`) or `tpsa > 120`; every other value — negative values
included — takes the linear formula `(1/0.9598)*(-0.0067*tpsa + 0.9598)`. -/
theorem tpsa_score_cases (tpsa : ℚ) :
    (c9 tpsa = 0 ↔ tpsa = 0 ∨ tpsa > 120) ∧
      c9 tpsa = if tpsa = 0 ∨ tpsa > 120 then 0
        else (1/0.9598) * (-0.0067 * tpsa + 0.9598) := by
  refine ⟨?_, rfl⟩
  by_cases h : tpsa = 0 ∨ tpsa > 120
  · simp [c9, h]
  · have h120 : tpsa ≤ 120 := by
      rcases not_or.mp h with ⟨-, h2⟩
      exact not_lt.mp h2
    simp only [c9, if_neg h, h, iff_false]
    intro heq
    have : (-0.0067 : ℚ) * tpsa + 0.9598 = 0 := by
      have h9 : ((1 : ℚ)/0.9598) ≠ 0 := by norm_num
      exact (mul_eq_zero.mp heq).resolve_left h9
    linarith

/-- C5: the aromatic-ring sub-score is the discrete lookup
0 ↦ 0.336376, 1 ↦ 0.816016, 2 ↦ 1, 3 ↦ 0.691115, 4 ↦ 0.199399,
and 0 on every other integer, negative values and values ≥ 5 included. -/
theorem aromatic_lookup (n : ℤ) :
    (c3 n = if n = 0 then 0.336376
      else if n = 1 then 0.816016
      else if n = 2 then 1
      else if n = 3 then 0.691115
      else if n = 4 then 0.199399
      else 0) ∧
      c3 5 = 0 ∧ c3 (-1) = 0 ∧ c3 0 = 0.336376 ∧ c3 1 = 0.816016 ∧
      c3 2 = 1 ∧ c3 3 = 0.691115 ∧ c3 4 = 0.199399 :=
  ⟨rfl, by norm_num [c3], by norm_num [c3], by norm_num [c3], by norm_num [c3],
    by norm_num [c3], by norm_num [c3], by norm_num [c3]⟩

/-- C6: the heavy-atom sub-score is 0 for `ha ≤ 5` or `ha > 45` (in
particular at 0, 5, 46 and 1000), and otherwise is the normalized
cubic `(1/0.624231)*(0.0000443*h^3 - 0.004556*h^2 + 0.12775*h - 0.463)`. -/
theorem heavy_atom_score_cases (ha : ℤ) :
    (c4 ha = if ha ≤ 5 ∨ ha > 45 then 0
      else (1/0.624231) *
        (0.0000443 * (ha : ℚ)^3 - 0.004556 * (ha : ℚ)^2 + 0.12775 * (ha : ℚ) - 0.463)) ∧
      c4 0 = 0 ∧ c4 5 = 0 ∧ c4 46 = 0 ∧ c4 1000 = 0 ∧ c4 20 ≠ 0 :=
  ⟨rfl, by norm_num [c4], by norm_num [c4], by norm_num [c4], by norm_num [c4],
    by norm_num [c4]⟩

/-- C7: for positive molecular weight the intermediate `b8` is
`mw ^ (-0.5) * (hba + hbd)`, and the MWHBN sub-score is 0 outside the
gate `0.05 < b8 ≤ 0.45` and the normalized cubic inside it. -/
theorem mwhbn_b8_and_gate (mw : ℚ) (hba hbd : ℤ) (x : ℝ) (_h : 0 < mw) :
    b8 mw hba hbd = (mw : ℝ) ^ (-0.5 : ℝ) * ((hba : ℝ) + (hbd : ℝ)) ∧
      c8 x = if x ≤ 0.05 ∨ x > 0.45 then 0
        else (1/0.72258) * (26.733 * x^3 - 31.495 * x^2 + 9.5202 * x - 0.1358) := by
  constructor
  · unfold b8
    push_cast
    ring
  · rfl

/-- Witness for C7 at `mw = 400`, `hba = 3`, `hbd = 1`. -/
theorem mwhbn_b8_and_gate_witness :
    (0 : ℚ) < 400 ∧
      (b8 400 3 1 = ((400 : ℚ) : ℝ) ^ (-0.5 : ℝ) * ((3 : ℤ) + ((1 : ℤ) : ℝ)) ∧
        c8 0.2 = if (0.2 : ℝ) ≤ 0.05 ∨ (0.2 : ℝ) > 0.45 then 0
          else (1/0.72258) * (26.733 * (0.2 : ℝ)^3 - 31.495 * (0.2 : ℝ)^2
            + 9.5202 * (0.2 : ℝ) - 0.1358)) :=
  ⟨by norm_num, mwhbn_b8_and_gate 400 3 1 0.2 (by norm_num)⟩

/-- C8: the pKa sub-score is 0 for `pka ≤ 3` or `pka > 11`, and for
`3 < pka ≤ 11` is the normalized quartic of the source; in particular
it is 0 at 3 and 11.01 and non-zero at 7. -/
theorem pka_score_cases (pka : ℚ) :
    (c10 pka = if pka ≤ 3 ∨ pka > 11 then 0
      else (1/0.597488) *
        (0.00045068 * pka^4 - 0.016331 * pka^3 + 0.18618 * pka^2
          - 0.71043 * pka + 0.8579)) ∧
      c10 3 = 0 ∧ c10 11.01 = 0 ∧ c10 7 ≠ 0 :=
  ⟨rfl, by norm_num [c10], by norm_num [c10], by norm_num [c10]⟩

/-
CSV pipeline (`process_csv`, source lines 74-136).  The model takes the
pipeline at the `csv.DictReader` interface: the input file is either
missing (`none`, i.e. `open` raises `FileNotFoundError`), or a header
(`fieldnames`, `none` when the file is empty) together with the list of
row dictionaries.  A cell is either a string that `float` parses to a
finite rational (`Cell.num`) or one it rejects with `ValueError`
(`Cell.text`); `Cell.score` is the formatted score string
`f"{score:.6f}"` that line 115 stores into the row, which occurs only in
output rows.  `print` output is modelled as a list of typed messages.
-/

/-- A CSV cell as the pipeline sees it. -/
inductive Cell where
  | num (q : ℚ)
  | text (s : String)
  | score (x : ℝ)

/-- A row dictionary produced by `csv.DictReader`. -/
abbrev Row := List (String × Cell)

/-- Python dict lookup `row[k]` (`none` models `KeyError`). -/
def dictGet (d : Row) (k : String) : Option Cell :=
  match d with
  | [] => none
  | (k2, v) :: rest => if k2 = k then some v else dictGet rest k

/-- Python dict store `row[k] = v`: replaces the value of an existing
key in place, otherwise appends the new key at the end. -/
def dictInsert (d : Row) (k : String) (v : Cell) : Row :=
  match d with
  | [] => [(k, v)]
  | (k2, v2) :: rest => if k2 = k then (k2, v) :: rest else (k2, v2) :: dictInsert rest k v

/-- The two per-row exception classes that source line 120 catches. -/
inductive RowError where
  | valueError (s : String)
  | keyError (k : String)
  deriving DecidableEq

/-- Dict access `row[k]`, raising `KeyError` when the key is absent. -/
def getField (row : Row) (k : String) : Except RowError Cell :=
  match dictGet row k with
  | some c => .ok c
  | none => .error (.keyError k)

/-- Python `float(cell)`: succeeds on numeric strings, raises
`ValueError` otherwise.  (A formatted-score cell never appears in an
input row, so its branch is unreachable in the pipeline.) -/
def pyFloat (c : Cell) : Except RowError ℚ :=
  match c with
  | .num q => .ok q
  | .text s => .error (.valueError s)
  | .score _ => .error (.valueError "formatted score")

/-- Python `int(x)` on a float: truncation toward zero. -/
def pyInt (q : ℚ) : ℤ :=
  Int.tdiv q.num (q.den : ℤ)

/-- The seven coerced descriptor values of one row (source lines 103-109). -/
structure Desc where
  aro_r : ℤ
  ha : ℤ
  mw : ℚ
  hba : ℤ
  hbd : ℤ
  tpsa : ℚ
  pka : ℚ
  deriving DecidableEq

/-- Field extraction and numeric coercion for one row, in source order
(lines 103-109); the first failing field raises. -/
def coerceRow (row : Row) : Except RowError Desc := do
  let aro_r := pyInt (← pyFloat (← getField row "aro_r"))
  let ha := pyInt (← pyFloat (← getField row "ha"))
  let mw ← pyFloat (← getField row "mw")
  let hba := pyInt (← pyFloat (← getField row "hba"))
  let hbd := pyInt (← pyFloat (← getField row "hbd"))
  let tpsa ← pyFloat (← getField row "tpsa")
  let pka ← pyFloat (← getField row "pka")
  return ⟨aro_r, ha, mw, hba, hbd, tpsa, pka⟩

/-- Console output of the pipeline, one constructor per `print` call. -/
inductive Msg where
  | rowScore (rowNum : ℕ) (score : ℝ)
  | skip (rowNum : ℕ) (e : RowError)
  | emptyCsv
  | summary (count : ℕ)
  | savedTo (path : String)
  | fileNotFound (path : String)
  | procError (s : String)

/-- Python `str(e)` for the exceptions the outer handler can report. -/
def excStr (e : PyExc) : String :=
  match e with
  | .fileNotFoundError p => "No such file or directory: " ++ p
  | .zeroDivisionError => "0.0 cannot be raised to a negative power"
  | .typeError => "comparison not supported between instances of complex and float"

/-- True when `float` accepts every field of the row, so that the row
reaches `calculate_bbb_score`, but the score evaluation then raises
(`mw ≤ 0`) — the situation the per-row handler does NOT catch. -/
def rowAbortsB (row : Row) : Bool :=
  match coerceRow row with
  | .ok d => decide (d.mw ≤ 0)
  | .error _ => false

/-- Whether a coercion attempt succeeded. -/
def exOk (e : Except RowError Desc) : Bool :=
  match e with
  | .ok _ => true
  | .error _ => false

/-- The row loop of `process_csv` (source lines 100-122), started at
row number 2.  A `RowError` is caught by the `except (ValueError,
KeyError)` clause: the skip diagnostic is printed and the loop
continues.  Any exception from `calculate_bbb_score` is not caught
here; it aborts the loop carrying the messages printed so far. -/
noncomputable def processRows (rows : List Row) (n : ℕ) :
    Except (PyExc × List Msg) (List Msg × List Row) :=
  match rows with
  | [] => .ok ([], [])
  | row :: rest =>
    match coerceRow row with
    | .error e =>
      match processRows rest (n + 1) with
      | .ok (ms, outs) => .ok (Msg.skip n e :: ms, outs)
      | .error (exc, ms) => .error (exc, Msg.skip n e :: ms)
    | .ok d =>
      match calculate_bbb_score d.aro_r d.ha d.mw d.hba d.hbd d.tpsa d.pka with
      | .error exc => .error (exc, [])
      | .ok s =>
        match processRows rest (n + 1) with
        | .ok (ms, outs) =>
          .ok (Msg.rowScore n s :: ms,
            dictInsert row "bbb_score" (Cell.score s) :: outs)
        | .error (exc, ms) => .error (exc, Msg.rowScore n s :: ms)

/-- One line written by `csv.DictWriter.writerow` (source line 128):
the dict values pulled in `fieldnames` order (`none` models the
`restval=None` default for an absent key). -/
def writeRow (fns : List String) (d : Row) : List (Option Cell) :=
  fns.map (fun f => dictGet d f)

/-- The input file as the model sees it: missing, or header plus rows. -/
structure CsvData where
  fieldnames : Option (List String)
  rows : List Row

/-- What one call of `process_csv` did: the console output and the
output file contents (`none` when the output file was never written). -/
structure ProcResult where
  printed : List Msg
  written : Option (List String × List (List (Option Cell)))

/-- The body of the `try` block of `process_csv` (source lines 84-131).
An `Except.error` is an exception escaping the block, carrying the
messages printed before the raise. -/
noncomputable def process_csv_body (inputFile outputFile : String)
    (input : Option CsvData) : Except (PyExc × List Msg) ProcResult :=
  match input with
  | none => .error (.fileNotFoundError inputFile, [])
  | some data =>
    match data.fieldnames with
    | none => .ok ⟨[Msg.emptyCsv], none⟩
    | some fns =>
      match processRows data.rows 2 with
      | .error (exc, ms) => .error (exc, ms)
      | .ok (ms, outs) =>
        .ok ⟨ms ++ [Msg.summary outs.length, Msg.savedTo outputFile],
          some (fns ++ ["bbb_score"], outs.map (writeRow (fns ++ ["bbb_score"])))⟩

/-- The diagnostic printed by the `except` clause that catches `e`
(source lines 133-136): `FileNotFoundError` gets the dedicated message
naming the input file, everything else the generic one. -/
def excMsg (inputFile : String) (e : PyExc) : Msg :=
  match e with
  | .fileNotFoundError _ => .fileNotFound inputFile
  | e => .procError (excStr e)

/-- `process_csv` (source lines 74-136): the `try` body with its two
`except` clauses, which turn every escaping exception into a printed
diagnostic and a normal return. -/
noncomputable def process_csv (inputFile outputFile : String)
    (input : Option CsvData) : ProcResult :=
  match process_csv_body inputFile outputFile input with
  | .ok r => r
  | .error (e, ms) => ⟨ms ++ [excMsg inputFile e], none⟩

/-- Dict lookup after a store at the same key sees the stored value. -/
theorem dictGet_insert_self (d : Row) (k : String) (v : Cell) :
    dictGet (dictInsert d k v) k = some v := by
  induction d with
  | nil => simp [dictInsert, dictGet]
  | cons p rest ih =>
    obtain ⟨k2, v2⟩ := p
    by_cases hk : k2 = k
    · simp [dictInsert, dictGet, hk]
    · simp [dictInsert, dictGet, hk, ih]

/-- Dict lookup at any other key is unaffected by a store. -/
theorem dictGet_insert_ne (d : Row) (k f : String) (v : Cell) (h : f ≠ k) :
    dictGet (dictInsert d k v) f = dictGet d f := by
  have hkf : ¬ k = f := fun he => h he.symm
  induction d with
  | nil => simp [dictInsert, dictGet, hkf]
  | cons p rest ih =>
    obtain ⟨k2, v2⟩ := p
    by_cases hk : k2 = k
    · simp [dictInsert, dictGet, hk, hkf]
    · by_cases hf2 : k2 = f
      · simp [dictInsert, dictGet, hk, hf2, h]
      · simp [dictInsert, dictGet, hk, hf2, ih]

/-- Sample header of a well-formed input file. -/
def sampleFns : List String := ["aro_r", "ha", "mw", "hba", "hbd", "tpsa", "pka"]

/-- A well-formed row (the end-to-end example of the spec). -/
def goodRow : Row :=
  [("aro_r", .num 2), ("ha", .num 20), ("mw", .num 300), ("hba", .num 3),
    ("hbd", .num 1), ("tpsa", .num 60), ("pka", .num 7)]

/-- A row whose fields all coerce but whose molecular weight is 0, so
that `calculate_bbb_score` raises. -/
def mwZeroRow : Row :=
  [("aro_r", .num 2), ("ha", .num 20), ("mw", .num 0), ("hba", .num 3),
    ("hbd", .num 1), ("tpsa", .num 60), ("pka", .num 7)]

/-- A row with a non-numeric molecular weight field. -/
def badTextRow : Row :=
  [("aro_r", .num 2), ("ha", .num 20), ("mw", .text "abc"), ("hba", .num 3),
    ("hbd", .num 1), ("tpsa", .num 60), ("pka", .num 7)]

/-- Header of an input file that already has a `bbb_score` column. -/
def scoreColFns : List String :=
  ["aro_r", "ha", "mw", "hba", "hbd", "tpsa", "pka", "bbb_score"]

/-- A well-formed row of such a file, whose original `bbb_score` cell
holds the string `x`. -/
def scoreColRow : Row :=
  [("aro_r", .num 2), ("ha", .num 20), ("mw", .num 300), ("hba", .num 3),
    ("hbd", .num 1), ("tpsa", .num 60), ("pka", .num 7), ("bbb_score", .text "x")]

/-- Counterexample to C2 as stated: a CSV whose first row coerces fine
but has `mw = 0`.  Its evaluation raises `ZeroDivisionError`, which the
per-row handler does not catch (it only catches `ValueError` and
`KeyError`), so the whole batch aborts: the following well-formed row is
never scored and the output file is never written — the claim promised
the row would be skipped and the output still written. -/
theorem bad_row_aborts_batch :
    process_csv "in.csv" "out.csv" (some ⟨some sampleFns, [mwZeroRow, goodRow]⟩) =
      ⟨[Msg.procError (excStr PyExc.zeroDivisionError)], none⟩ :=
  rfl

/-- C2 as amended: when no row makes the scorer itself raise (no row
that coerces to `mw ≤ 0`), a row whose fields cannot be coerced is
skipped with a diagnostic naming its row number and the cause, the
remaining rows are still processed, and the output file is written with
exactly the coercible rows. -/
theorem processRows_no_abort :
    ∀ (rows : List Row) (n : ℕ), (∀ r ∈ rows, rowAbortsB r = false) →
      ∃ (ms : List Msg) (outs : List Row), processRows rows n = .ok (ms, outs) ∧
        outs.length = (rows.filter (fun r => exOk (coerceRow r))).length ∧
        ∀ i r e, rows.get? i = some r → coerceRow r = .error e →
          Msg.skip (n + i) e ∈ ms := by
  intro rows
  induction rows with
  | nil =>
    intro n _
    exact ⟨[], [], rfl, rfl, by intro i r e hi _; simp at hi⟩
  | cons row rest ih =>
    intro n h
    have hrest : ∀ r ∈ rest, rowAbortsB r = false :=
      fun r hr => h r (List.mem_cons_of_mem _ hr)
    obtain ⟨ms, outs, hpr, hlen, hmem⟩ := ih (n + 1) hrest
    cases hc : coerceRow row with
    | error e0 =>
      refine ⟨Msg.skip n e0 :: ms, outs, ?_, ?_, ?_⟩
      · simp [processRows, hc, hpr]
      · simpa [List.filter_cons, hc, exOk] using hlen
      · intro i r e hi he
        cases i with
        | zero =>
          obtain rfl : row = r := by simpa using hi
          rw [hc] at he
          obtain rfl : e0 = e := by injection he
          simp
        | succ j =>
          have hj : rest.get? j = some r := by simpa using hi
          have hin := hmem j r e hj he
          have harith : n + 1 + j = n + (j + 1) := by omega
          rw [harith] at hin
          exact List.mem_cons_of_mem _ hin
    | ok d =>
      have hmw : 0 < d.mw := by
        have hrow := h row (List.mem_cons_self row rest)
        simp [rowAbortsB, hc] at hrow
        exact hrow
      have hcalc : calculate_bbb_score d.aro_r d.ha d.mw d.hba d.hbd d.tpsa d.pka =
          .ok (bbbVal d.aro_r d.ha d.mw d.hba d.hbd d.tpsa d.pka) := by
        simp [calculate_bbb_score, hmw.ne', not_lt.mpr hmw.le]
      refine ⟨Msg.rowScore n (bbbVal d.aro_r d.ha d.mw d.hba d.hbd d.tpsa d.pka) :: ms,
        dictInsert row "bbb_score"
          (Cell.score (bbbVal d.aro_r d.ha d.mw d.hba d.hbd d.tpsa d.pka)) :: outs,
        ?_, ?_, ?_⟩
      · simp [processRows, hc, hcalc, hpr]
      · simpa [List.filter_cons, hc, exOk] using hlen
      · intro i r e hi he
        cases i with
        | zero =>
          obtain rfl : row = r := by simpa using hi
          rw [hc] at he
          exact absurd he (by simp)
        | succ j =>
          have hj : rest.get? j = some r := by simpa using hi
          have hin := hmem j r e hj he
          have harith : n + 1 + j = n + (j + 1) := by omega
          rw [harith] at hin
          exact List.mem_cons_of_mem _ hin

/-- C2 as amended, at the `process_csv` level: provided no row drives
the scorer into a raise (`rowAbortsB`), every coercion failure is
isolated — the row is skipped with a `Msg.skip` diagnostic carrying its
row number (numbering starts at 2) and the `RowError` cause, all other
rows are scored, and the output file is written. -/
theorem process_csv_isolates_malformed_rows (inputFile outputFile : String)
    (fns : List String) (rows : List Row)
    (h : ∀ r ∈ rows, rowAbortsB r = false) :
    ∃ (ms : List Msg) (outs : List Row),
      process_csv inputFile outputFile (some ⟨some fns, rows⟩) =
        ⟨ms ++ [Msg.summary outs.length, Msg.savedTo outputFile],
          some (fns ++ ["bbb_score"], outs.map (writeRow (fns ++ ["bbb_score"])))⟩ ∧
      outs.length = (rows.filter (fun r => exOk (coerceRow r))).length ∧
      ∀ i r e, rows.get? i = some r → coerceRow r = .error e → Msg.skip (2 + i) e ∈ ms := by
  obtain ⟨ms, outs, hpr, hlen, hmem⟩ := processRows_no_abort rows 2 h
  refine ⟨ms, outs, ?_, hlen, hmem⟩
  simp [process_csv, process_csv_body, hpr]

/-- Witness for the amended C2: one well-formed row followed by one row
with a non-numeric `mw` field satisfies the no-abort hypothesis. -/
theorem process_csv_isolates_malformed_rows_witness :
    (∀ r ∈ ([goodRow, badTextRow] : List Row), rowAbortsB r = false) ∧
      (∃ (ms : List Msg) (outs : List Row),
        process_csv "in.csv" "out.csv" (some ⟨some sampleFns, [goodRow, badTextRow]⟩) =
          ⟨ms ++ [Msg.summary outs.length, Msg.savedTo "out.csv"],
            some (sampleFns ++ ["bbb_score"],
              outs.map (writeRow (sampleFns ++ ["bbb_score"])))⟩ ∧
        outs.length =
          (([goodRow, badTextRow] : List Row).filter (fun r => exOk (coerceRow r))).length ∧
        ∀ i r e, ([goodRow, badTextRow] : List Row).get? i = some r →
          coerceRow r = .error e → Msg.skip (2 + i) e ∈ ms) :=
  ⟨by decide, process_csv_isolates_malformed_rows "in.csv" "out.csv" sampleFns
    [goodRow, badTextRow] (by decide)⟩

/-- Counterexample to C9 as stated: an input file that already has a
column named `bbb_score` (holding the string `x`).  Line 115 overwrites
that dict entry, so the written row shows the computed score in the
original column position instead of the original value — the original
columns are not all preserved. -/
theorem bbb_column_overwritten :
    (process_csv "in.csv" "out.csv" (some ⟨some scoreColFns, [scoreColRow]⟩)).written =
      some (scoreColFns ++ ["bbb_score"],
        [[some (Cell.num 2), some (Cell.num 20), some (Cell.num 300), some (Cell.num 3),
          some (Cell.num 1), some (Cell.num 60), some (Cell.num 7),
          some (Cell.score (bbbVal 2 20 300 3 1 60 7)),
          some (Cell.score (bbbVal 2 20 300 3 1 60 7))]]) ∧
      Cell.score (bbbVal 2 20 300 3 1 60 7) ≠ Cell.text "x" :=
  ⟨rfl, fun hcell => Cell.noConfusion hcell⟩

/-- C9 as amended: for a successfully scored row, provided no original
column is named `bbb_score`, the written row holds every original
column value unchanged, in the original column order, with the score
cell appended last; a pre-existing `bbb_score` column would instead be
overwritten. -/
theorem scored_row_preserves_columns (fns : List String) (row : Row) (s : ℝ)
    (h : "bbb_score" ∉ fns) :
    writeRow (fns ++ ["bbb_score"]) (dictInsert row "bbb_score" (Cell.score s)) =
      fns.map (fun f => dictGet row f) ++ [some (Cell.score s)] := by
  revert h
  induction fns with
  | nil =>
    intro _
    simp [writeRow, dictGet_insert_self]
  | cons f rest ih =>
    intro h
    have hf : f ≠ "bbb_score" := fun he => h (he ▸ List.mem_cons_self f rest)
    have hrest : "bbb_score" ∉ rest := fun hm => h (List.mem_cons_of_mem f hm)
    simp only [List.cons_append, writeRow, List.map_cons]
    rw [dictGet_insert_ne row "bbb_score" f (Cell.score s) hf]
    have htail := ih hrest
    simp only [writeRow] at htail
    rw [htail]

/-- Witness for the amended C9 on the sample header and row. -/
theorem scored_row_preserves_columns_witness :
    ("bbb_score" ∉ sampleFns) ∧
      writeRow (sampleFns ++ ["bbb_score"]) (dictInsert goodRow "bbb_score" (Cell.score 0)) =
        sampleFns.map (fun f => dictGet goodRow f) ++ [some (Cell.score 0)] :=
  ⟨by decide, scored_row_preserves_columns sampleFns goodRow 0 (by decide)⟩

/-- C10: every exception that escapes the `try` body — a missing input
file included — is caught by one of the two `except` clauses, which
print a diagnostic for it and return normally; no exception propagates
to the caller of `process_csv`. -/
theorem process_csv_catches_all (inputFile outputFile : String) (input : Option CsvData)
    (e : PyExc) (ms : List Msg)
    (h : process_csv_body inputFile outputFile input = .error (e, ms)) :
    process_csv inputFile outputFile input = ⟨ms ++ [excMsg inputFile e], none⟩ := by
  simp [process_csv, h]

/-- Witness for C10: the missing-input-file case. -/
theorem process_csv_catches_all_witness :
    process_csv_body "in.csv" "out.csv" none =
        .error (.fileNotFoundError "in.csv", []) ∧
      process_csv "in.csv" "out.csv" none =
        ⟨[] ++ [excMsg "in.csv" (.fileNotFoundError "in.csv")], none⟩ :=
  ⟨rfl, process_csv_catches_all "in.csv" "out.csv" none
    (.fileNotFoundError "in.csv") [] rfl⟩

end KremblinModel
